import Mathlib

/-! Verification of `btBulletDebugGlobals.h`.

A shallow embedding of `struct btBulletDebug`
(`src/branches/bullet2.79/C++WithDebug/bullet-2.78/src/btBulletDebugGlobals.h`):
a struct whose only content is 21 data members, each declared
`static const bool <name> = <literal>;`.

The header has no functions. What is embedded from it is the list of member
declarations, in declaration order, together with the C++ rules that give such
declarations a meaning: qualified name lookup `btBulletDebug::<name>` and the
rule that an assignment to a `const` object is ill-formed.

The registry operations (construction from a default table, `get`, `keys`) are
described by the specification only; they are modelled separately and marked.
-/

namespace BulletDebug

/-! ## Member declarations -/

/-- One data member declaration of a struct: its decl-specifiers (`static`,
`const`, the type name), the declared name and the `bool` literal of its
in-class initializer. -/
structure MemberDecl where
  isStatic : Bool
  isConst : Bool
  typeName : String
  name : String
  init : Bool
  deriving DecidableEq, Repr

/-- The declaration `static const bool <name> = <init>;`. -/
def staticConstBool (name : String) (init : Bool) : MemberDecl :=
  { isStatic := true, isConst := true, typeName := "bool", name := name, init := init }

/-- The member declarations of `struct btBulletDebug`, lines 6 to 26 of the
header, in declaration order. -/
def btBulletDebug : List MemberDecl :=
  [ staticConstBool "debugRigidBody" false,
    staticConstBool "debugCollisionWorld" false,
    staticConstBool "debugConstraints" false,
    staticConstBool "debugDiscreteDynamicsWorld" true,
    staticConstBool "debugBoxBoxDetector" false,
    staticConstBool "debugIslands" false,
    staticConstBool "debugBVHTriangleMesh" false,
    staticConstBool "debugConvexHull" false,
    staticConstBool "debugConvexShape" false,
    staticConstBool "debugShapeHull" false,
    staticConstBool "debugStridingMesh" false,
    staticConstBool "debugGJK" false,
    staticConstBool "debugGJKDetector" false,
    staticConstBool "debugPersistentManifold" false,
    staticConstBool "debugVoronoiSimplex" false,
    staticConstBool "debugSolver" false,
    staticConstBool "debugBroadphase" false,
    staticConstBool "debugBoxShape" false,
    staticConstBool "debugGimpactShape" false,
    staticConstBool "debugGimpactAlgo" false,
    staticConstBool "debugGimpactBVH" false ]

/-- The names a struct declares, in declaration order. -/
def declaredNames (decls : List MemberDecl) : List String :=
  decls.map (fun d => d.name)

/-- The key/value table a struct's declarations spell out: one entry per
member, the declared name with the value of its initializer. -/
def defaultTable (decls : List MemberDecl) : List (String × Bool) :=
  decls.map (fun d => (d.name, d.init))

/-! ## Using a member: name lookup, reads and assignments -/

/-- Qualified name lookup `S::key` among the member declarations of `S`: the
member declared under that name, if any. -/
def findMember : List MemberDecl → String → Option MemberDecl
  | [], _ => none
  | d :: ds, key => if d.name = key then some d else findMember ds key

/-- The value of the expression `S::key`: the value the member named `key`
holds, or nothing when `S` declares no such member (the expression is
ill-formed). -/
def readFlag (decls : List MemberDecl) (key : String) : Option Bool :=
  (findMember decls key).map (fun d => d.init)

/-- The statement `S::key = v;`. It is ill-formed (no result) when `S` declares
no member `key` or when that member is `const`; otherwise the member holds `v`
afterwards. -/
def assignFlag : List MemberDecl → String → Bool → Option (List MemberDecl)
  | [], _, _ => none
  | d :: ds, key, v =>
      if d.name = key then
        if d.isConst then none else some ({ d with init := v } :: ds)
      else (assignFlag ds key v).map (fun ds' => d :: ds')

/-- What a program can do with a member of the struct: read it or try to
assign to it. -/
inductive FlagOp where
  | read (key : String)
  | assign (key : String) (v : Bool)
  deriving DecidableEq, Repr

/-- The members after one operation; an operation that is ill-formed is not
part of any program and leaves them as they are. -/
def step (decls : List MemberDecl) : FlagOp → List MemberDecl
  | .read _ => decls
  | .assign key v => (assignFlag decls key v).getD decls

/-- The members after a sequence of operations. -/
def run (decls : List MemberDecl) (ops : List FlagOp) : List MemberDecl :=
  ops.foldl step decls

/-! ## The diagnostic registry of the specification -/

/-- Modelled from the spec: the error taxonomy of the registry (`ConfigError`,
`UnknownKeyError`); the header defines no error type. -/
inductive RegistryError where
  | configError
  | unknownKeyError (key : String)
  deriving DecidableEq, Repr

/-- Modelled from the spec: the frozen registry, a mapping from key to value
kept in the insertion order of the default table; the header defines no
registry type. -/
structure Registry where
  entries : List (String × Bool)
  deriving DecidableEq, Repr

/-- Modelled from the spec: whether a default table contains a duplicate key,
the condition under which construction fails; absent from the header. -/
def hasDuplicateKey : List (String × Bool) → Bool
  | [] => false
  | (k, _) :: rest => rest.any (fun e => e.1 == k) || hasDuplicateKey rest

/-- Modelled from the spec: `initialize(defaults)`, absent from the header.
It fails with `ConfigError` if the default table is empty or contains a
duplicate key, and otherwise constructs the registry from the table. -/
def initializeRegistry (defaults : List (String × Bool)) : Except RegistryError Registry :=
  if defaults.isEmpty || hasDuplicateKey defaults then .error .configError
  else .ok { entries := defaults }

/-- Lookup of a key in a list of entries, first match. -/
def lookupEntry : List (String × Bool) → String → Option Bool
  | [], _ => none
  | (k, v) :: rest, key => if k = key then some v else lookupEntry rest key

/-- Modelled from the spec: `get(key)`, absent from the header. It returns the
value stored for `key` and fails with `UnknownKeyError` if `key` is not
present; an absent key is never answered with a default. -/
def Registry.get (r : Registry) (key : String) : Except RegistryError Bool :=
  match lookupEntry r.entries key with
  | some v => .ok v
  | none => .error (.unknownKeyError key)

/-- Modelled from the spec: the lazy sequence `keys()` hands out, a cursor over
the keys not yet produced; absent from the header. -/
structure KeySeq where
  remaining : List String
  deriving DecidableEq, Repr

/-- Modelled from the spec: one step of the key sequence, the next key with
the rest of the sequence, or nothing when it is exhausted. -/
def KeySeq.next? (s : KeySeq) : Option (String × KeySeq) :=
  match s.remaining with
  | [] => none
  | k :: ks => some (k, { remaining := ks })

/-- Modelled from the spec: `keys()`, absent from the header. Every call
starts a fresh sequence of all known keys in the insertion order of the
default table. -/
def Registry.keys (r : Registry) : KeySeq :=
  { remaining := r.entries.map (fun e => e.1) }

/-- The keys obtained by stepping a key sequence at most `fuel` times. -/
def enumerate : Nat → KeySeq → List String
  | 0, _ => []
  | fuel + 1, s =>
      match s.next? with
      | none => []
      | some (k, s') => k :: enumerate fuel s'

/-- The registry that holds the table declared by `struct btBulletDebug`. -/
def btBulletDebugRegistry : Registry :=
  { entries := defaultTable btBulletDebug }

/-! ## General lemmas -/

/-- Assignment to a member of a struct whose members are all `const` is
ill-formed, whatever the name and the value. -/
theorem assignFlag_eq_none_of_const (decls : List MemberDecl)
    (hc : ∀ d ∈ decls, d.isConst = true) (key : String) (v : Bool) :
    assignFlag decls key v = none := by
  induction decls with
  | nil => rfl
  | cons d ds ih =>
    have hd : d.isConst = true := hc d (List.mem_cons_self d ds)
    have hds : ∀ e ∈ ds, e.isConst = true := fun e he => hc e (List.mem_cons_of_mem d he)
    by_cases hk : d.name = key
    · simp [assignFlag, hk, hd]
    · simp [assignFlag, hk, ih hds]

/-- No operation changes the members of a struct whose members are all `const`. -/
theorem step_eq_self_of_const (decls : List MemberDecl)
    (hc : ∀ d ∈ decls, d.isConst = true) (op : FlagOp) : step decls op = decls := by
  cases op with
  | read key => rfl
  | assign key v => simp [step, assignFlag_eq_none_of_const decls hc key v]

/-- No sequence of operations changes the members of a struct whose members
are all `const`. -/
theorem run_eq_self_of_const (decls : List MemberDecl)
    (hc : ∀ d ∈ decls, d.isConst = true) (ops : List FlagOp) : run decls ops = decls := by
  induction ops with
  | nil => rfl
  | cons op ops ih =>
    show run (step decls op) ops = decls
    rw [step_eq_self_of_const decls hc op]
    exact ih

/-- A lookup in a list of entries finds a value exactly for the keys of the list. -/
theorem lookupEntry_isSome_iff (es : List (String × Bool)) (key : String) :
    (∃ v, lookupEntry es key = some v) ↔ key ∈ es.map (fun e => e.1) := by
  induction es with
  | nil => simp [lookupEntry]
  | cons e es ih =>
    obtain ⟨k, v⟩ := e
    by_cases hk : k = key
    · simp [lookupEntry, hk]
    · have hk' : ¬ key = k := fun h => hk h.symm
      simp only [lookupEntry, hk, if_false, List.map_cons, List.mem_cons, hk', false_or]
      exact ih

/-- A lookup of a key that is not among the keys of the list finds nothing. -/
theorem lookupEntry_eq_none_of_not_mem (es : List (String × Bool)) (key : String)
    (h : key ∉ es.map (fun e => e.1)) : lookupEntry es key = none := by
  cases hl : lookupEntry es key with
  | none => rfl
  | some v => exact absurd ((lookupEntry_isSome_iff es key).1 ⟨v, hl⟩) h

/-- The registry answers `get` with a value exactly for its own keys. -/
theorem Registry.get_ok_iff (r : Registry) (key : String) :
    (∃ v, r.get key = .ok v) ↔ key ∈ r.entries.map (fun e => e.1) := by
  rw [← lookupEntry_isSome_iff]
  unfold Registry.get
  cases lookupEntry r.entries key with
  | none => simp
  | some v => simp

/-- The registry answers `get` on a key it does not hold with `UnknownKeyError`. -/
theorem Registry.get_unknown (r : Registry) (key : String)
    (h : key ∉ r.entries.map (fun e => e.1)) : r.get key = .error (.unknownKeyError key) := by
  unfold Registry.get
  rw [lookupEntry_eq_none_of_not_mem r.entries key h]

/-- A table has a duplicate key exactly when its keys are not pairwise distinct. -/
theorem hasDuplicateKey_eq_false_iff (es : List (String × Bool)) :
    hasDuplicateKey es = false ↔ (es.map (fun e => e.1)).Nodup := by
  induction es with
  | nil => simp [hasDuplicateKey]
  | cons e es ih =>
    obtain ⟨k, v⟩ := e
    simp only [hasDuplicateKey, Bool.or_eq_false_iff, List.map_cons, List.nodup_cons, ih]
    refine and_congr_left (fun _ => ?_)
    constructor
    · intro h hmem
      obtain ⟨e, he, hek⟩ := List.mem_map.1 hmem
      exact List.any_eq_false.1 h e he (by simp [hek])
    · intro h
      apply List.any_eq_false.2
      intro e he heq
      exact h (List.mem_map.2 ⟨e, he, by simpa using heq⟩)

/-- Construction of the registry succeeds exactly on the non-empty tables with
pairwise distinct keys, and then holds the table unchanged. -/
theorem initializeRegistry_ok_iff (es : List (String × Bool)) (r : Registry) :
    initializeRegistry es = .ok r ↔
      es ≠ [] ∧ (es.map (fun e => e.1)).Nodup ∧ r = { entries := es } := by
  rw [← hasDuplicateKey_eq_false_iff]
  unfold initializeRegistry
  cases es with
  | nil => simp
  | cons e es =>
    cases hdup : hasDuplicateKey (e :: es) with
    | true => simp
    | false => simp [eq_comm]

/-- With at least as much fuel as keys remain, enumeration produces all the
remaining keys in order. -/
theorem enumerate_eq_remaining (fuel : Nat) (s : KeySeq) (h : s.remaining.length ≤ fuel) :
    enumerate fuel s = s.remaining := by
  induction fuel generalizing s with
  | zero =>
    have h0 : s.remaining = [] := List.length_eq_zero.mp (Nat.le_zero.mp h)
    simp [enumerate, h0]
  | succ n ih =>
    obtain ⟨rem⟩ := s
    cases rem with
    | nil => simp [enumerate, KeySeq.next?]
    | cons k ks =>
      have hks : ks.length ≤ n := Nat.le_of_succ_le_succ h
      simp [enumerate, KeySeq.next?, ih { remaining := ks } hks]

/-! ## Theorems -/

/-- C1: among the 21 flags declared in `struct btBulletDebug`,
`debugDiscreteDynamicsWorld` is declared with the value `true`, the other 20
are declared with the value `false`; for every declared flag, its value is
`true` if and only if it is `debugDiscreteDynamicsWorld`. -/
theorem C1_only_debugDiscreteDynamicsWorld_true :
    btBulletDebug.length = 21 ∧
    staticConstBool "debugDiscreteDynamicsWorld" true ∈ btBulletDebug ∧
    (btBulletDebug.filter (fun d => d.name != "debugDiscreteDynamicsWorld")).length = 20 ∧
    (∀ d ∈ btBulletDebug, d.name ≠ "debugDiscreteDynamicsWorld" → d.init = false) ∧
    (∀ d ∈ btBulletDebug, (d.init = true ↔ d.name = "debugDiscreteDynamicsWorld")) := by
  refine ⟨rfl, ?_, ?_, ?_, ?_⟩
  · simp [btBulletDebug]
  · decide
  · decide
  · decide

/-- C2: every flag declared in `struct btBulletDebug` is `static const bool`;
reading it gives the value written in its declaration; assigning to it is
ill-formed; no sequence of reads and attempted assignments changes the
declarations, so a read after any such sequence gives the declared value
again. -/
theorem C2_flags_are_constants (d : MemberDecl) (hd : d ∈ btBulletDebug)
    (ops : List FlagOp) :
    (d.isStatic = true ∧ d.isConst = true ∧ d.typeName = "bool") ∧
    readFlag btBulletDebug d.name = some d.init ∧
    (∀ v, assignFlag btBulletDebug d.name v = none) ∧
    run btBulletDebug ops = btBulletDebug ∧
    readFlag (run btBulletDebug ops) d.name = some d.init := by
  have hall : ∀ e ∈ btBulletDebug,
      (e.isStatic = true ∧ e.isConst = true ∧ e.typeName = "bool") ∧
      readFlag btBulletDebug e.name = some e.init := by decide
  have hconst : ∀ e ∈ btBulletDebug, e.isConst = true := fun e he => (hall e he).1.2.1
  have hrun : run btBulletDebug ops = btBulletDebug :=
    run_eq_self_of_const btBulletDebug hconst ops
  refine ⟨(hall d hd).1, (hall d hd).2, ?_, hrun, ?_⟩
  · exact fun v => assignFlag_eq_none_of_const btBulletDebug hconst d.name v
  · rw [hrun]
    exact (hall d hd).2

/-- C2 at `debugDiscreteDynamicsWorld`, read after an attempted assignment of
`false` to it and a read of `debugGJK`. -/
theorem C2_flags_are_constants_witness :
    staticConstBool "debugDiscreteDynamicsWorld" true ∈ btBulletDebug ∧
    readFlag
      (run btBulletDebug [.assign "debugDiscreteDynamicsWorld" false, .read "debugGJK"])
      "debugDiscreteDynamicsWorld" = some true :=
  ⟨by decide,
   (C2_flags_are_constants (staticConstBool "debugDiscreteDynamicsWorld" true) (by decide)
      [.assign "debugDiscreteDynamicsWorld" false, .read "debugGJK"]).2.2.2.2⟩

/-- C3: in the registry constructed from the table that `struct btBulletDebug`
declares, `get` succeeds exactly for the 21 declared flag names; for every
other key it fails with `UnknownKeyError` and does not answer `false`. The
same holds for the name lookup `btBulletDebug::key` itself, which finds a
member exactly for the declared names. -/
theorem C3_lookup_succeeds_iff_declared (r : Registry)
    (hr : initializeRegistry (defaultTable btBulletDebug) = .ok r) (key : String) :
    (declaredNames btBulletDebug).length = 21 ∧
    ((∃ v, r.get key = .ok v) ↔ key ∈ declaredNames btBulletDebug) ∧
    (key ∉ declaredNames btBulletDebug →
      r.get key = .error (.unknownKeyError key) ∧ r.get key ≠ .ok false) ∧
    ((∃ v, readFlag btBulletDebug key = some v) ↔ key ∈ declaredNames btBulletDebug) := by
  have hent : r = { entries := defaultTable btBulletDebug } :=
    ((initializeRegistry_ok_iff _ r).1 hr).2.2
  have hkeys : r.entries.map (fun e => e.1) = declaredNames btBulletDebug := by
    rw [hent]; rfl
  have hget := Registry.get_ok_iff r key
  rw [hkeys] at hget
  refine ⟨rfl, hget, ?_, ?_⟩
  · intro hnot
    have herr : r.get key = .error (.unknownKeyError key) :=
      Registry.get_unknown r key (by rw [hkeys]; exact hnot)
    refine ⟨herr, ?_⟩
    rw [herr]
    exact fun h => Except.noConfusion h
  · have hread : ∀ (ds : List MemberDecl),
        (∃ v, readFlag ds key = some v) ↔ key ∈ declaredNames ds := by
      intro ds
      induction ds with
      | nil => simp [readFlag, findMember, declaredNames]
      | cons e es ih =>
        by_cases hk : e.name = key
        · simp [readFlag, findMember, declaredNames, hk]
        · have hk' : ¬ key = e.name := fun h => hk h.symm
          simp only [readFlag, findMember, hk, if_false, declaredNames, List.map_cons,
            List.mem_cons, hk', false_or]
          exact ih
    exact hread btBulletDebug

/-- C3 at the undeclared key `broadphase`: the registry constructed from the
declared table answers it with `UnknownKeyError`. -/
theorem C3_lookup_succeeds_iff_declared_witness :
    initializeRegistry (defaultTable btBulletDebug) = .ok btBulletDebugRegistry ∧
    "broadphase" ∉ declaredNames btBulletDebug ∧
    btBulletDebugRegistry.get "broadphase" = .error (.unknownKeyError "broadphase") ∧
    btBulletDebugRegistry.get "broadphase" ≠ .ok false :=
  ⟨rfl, by decide,
   (C3_lookup_succeeds_iff_declared btBulletDebugRegistry rfl "broadphase").2.2.1 (by decide)⟩

/-- C4: the table that `struct btBulletDebug` declares is a valid default
table: it is non-empty, it has 21 entries, its keys are pairwise distinct, and
constructing the registry from it succeeds rather than failing with
`ConfigError`. -/
theorem C4_declared_table_is_valid :
    defaultTable btBulletDebug ≠ [] ∧
    (defaultTable btBulletDebug).length = 21 ∧
    ((defaultTable btBulletDebug).map (fun e => e.1)).Pairwise (fun a b => a ≠ b) ∧
    (declaredNames btBulletDebug).Nodup ∧
    hasDuplicateKey (defaultTable btBulletDebug) = false ∧
    initializeRegistry (defaultTable btBulletDebug) = .ok btBulletDebugRegistry ∧
    initializeRegistry (defaultTable btBulletDebug) ≠ .error .configError := by
  refine ⟨by decide, rfl, by decide, by decide, by decide, rfl, ?_⟩
  exact fun h => Except.noConfusion h

/-- C5: enumerating the keys of the registry constructed from the table that
`struct btBulletDebug` declares, with fuel for at least 21 steps, yields
exactly the declared flag names, each once, in declaration order, from
`debugRigidBody` to `debugGimpactBVH`; a second enumeration, started afresh
with any such fuel, yields the same sequence. -/
theorem C5_keys_in_declaration_order (r : Registry)
    (hr : initializeRegistry (defaultTable btBulletDebug) = .ok r)
    (fuel fuel' : Nat) (hfuel : 21 ≤ fuel) (hfuel' : 21 ≤ fuel') :
    enumerate fuel r.keys =
      [ "debugRigidBody", "debugCollisionWorld", "debugConstraints",
        "debugDiscreteDynamicsWorld", "debugBoxBoxDetector", "debugIslands",
        "debugBVHTriangleMesh", "debugConvexHull", "debugConvexShape",
        "debugShapeHull", "debugStridingMesh", "debugGJK", "debugGJKDetector",
        "debugPersistentManifold", "debugVoronoiSimplex", "debugSolver",
        "debugBroadphase", "debugBoxShape", "debugGimpactShape", "debugGimpactAlgo",
        "debugGimpactBVH" ] ∧
    enumerate fuel r.keys = declaredNames btBulletDebug ∧
    (enumerate fuel r.keys).Nodup ∧
    (enumerate fuel r.keys).head? = some "debugRigidBody" ∧
    (enumerate fuel r.keys).getLast? = some "debugGimpactBVH" ∧
    enumerate fuel' r.keys = enumerate fuel r.keys := by
  have hent : r = { entries := defaultTable btBulletDebug } :=
    ((initializeRegistry_ok_iff _ r).1 hr).2.2
  have hrem : r.keys.remaining = declaredNames btBulletDebug := by
    rw [hent]; rfl
  have hlen : r.keys.remaining.length = 21 := by rw [hrem]; rfl
  have h1 : enumerate fuel r.keys = declaredNames btBulletDebug := by
    rw [enumerate_eq_remaining fuel r.keys (by omega), hrem]
  have h2 : enumerate fuel' r.keys = declaredNames btBulletDebug := by
    rw [enumerate_eq_remaining fuel' r.keys (by omega), hrem]
  rw [h2, h1]
  exact ⟨rfl, rfl, by decide, rfl, rfl, rfl⟩

/-- C5 at the registry of the declared table, enumerated once with fuel 21 and
once more with fuel 30. -/
theorem C5_keys_in_declaration_order_witness :
    initializeRegistry (defaultTable btBulletDebug) = .ok btBulletDebugRegistry ∧
    (enumerate 21 btBulletDebugRegistry.keys).head? = some "debugRigidBody" ∧
    (enumerate 21 btBulletDebugRegistry.keys).getLast? = some "debugGimpactBVH" ∧
    enumerate 30 btBulletDebugRegistry.keys = enumerate 21 btBulletDebugRegistry.keys :=
  ⟨rfl,
   (C5_keys_in_declaration_order btBulletDebugRegistry rfl 21 30
      (by decide) (by decide)).2.2.2⟩

end BulletDebug
